import Mathlib

/-!
Verification of the Insights-tab analytics pipeline of the Blu Funnel Games
dashboard (`src/app.py`).  The pipeline is a pure in-memory transform over
three tables (Person, Company, PortfolioEntry) loaded from CSV.  We embed the
relevant pandas code shallowly:

* a dataframe becomes a `List` of records (a Lean structure per row type);
* a CSV cell that may be `NaN` becomes an `Option String`;
* `df.merge(..., how='left')` becomes, per left row, the list of matching
  right rows (all of them — pandas fans out on duplicate keys), or a single
  all-null-extension row when no right row matches;
* `groupby(...).size()` becomes counting with `List.filter`/`List.count`;
* the float `votes / total_players_count * 100` rounded by `.round(1)` is an
  exact multiple of 1/10, so it is modelled as an integer number of tenths of
  a percent (`pctTenths`, computed with integer arithmetic and proved equal
  to the rational rounding formula by `pctTenths_eq_round`), extended with
  the two non-finite values (`inf`, `nan`) that numpy produces when the
  denominator is zero (`x/0 = inf` for `x > 0`, `0/0 = nan`);
* `sort_values(..., ascending=False)` becomes `List.insertionSort` with the
  corresponding "descending, NaN last" relation (pandas' quicksort is
  unstable, so only the sortedness of the result is meaningful);
* a row of a frame whose columns are only known dynamically (needed for the
  merge at line 819 of `src/app.py`, which renames the overlapping `lead`
  column into `lead_x`/`lead_y`) becomes an association list
  `List (String × Cell)`, and the pandas `row['col']` access becomes a
  lookup in `Except`, erroring like the `KeyError` pandas raises on a
  missing label.
-/

namespace BluFunnel

/-- Person row (`players.csv`, columns `player_id, player_name, designation, team`).
`designation` and `team` may be missing (NaN) in the CSV. -/
structure Person where
  player_id : Int
  player_name : String
  designation : Option String
  team : Option String
deriving DecidableEq, Repr

/-- Company row (`companies.csv`).  `lead`, `co_lead`, `deal_team` are
comma-joined name lists stored as plain strings; any field can be NaN. -/
structure Company where
  company_id : Int
  company_name : String
  pipeline_stage : Option String
  founder_archetype : Option String
  sector : Option String
  company_stage : Option String
  cheque : Option String
  lead : Option String
  co_lead : Option String
  deal_team : Option String
deriving DecidableEq, Repr

/-- PortfolioEntry row (`model_portfolios.csv`).  `companies` is a
comma-joined list of company names; missing (NaN) is modelled as `none`. -/
structure PortfolioEntry where
  player_id : Int
  player_name : String
  designation : String
  companies : Option String
deriving DecidableEq, Repr

/-- Split a character list at every comma, as Python's `s.split(',')` does
(adjacent or trailing commas yield empty items; the empty string yields one
empty item).  `acc` holds the characters of the current item, reversed. -/
def splitCommaAux : List Char → List Char → List String
  | [], acc => [String.mk acc.reverse]
  | ch :: rest, acc =>
    if ch = ',' then String.mk acc.reverse :: splitCommaAux rest []
    else splitCommaAux rest (ch :: acc)

/-- Python's `s.split(',')`. -/
def splitComma (s : String) : List String :=
  splitCommaAux s.data []

/-- Python's `s.strip()`: drop leading and trailing whitespace. -/
def strip (s : String) : String :=
  String.mk (((s.data.dropWhile Char.isWhitespace).reverse.dropWhile
    Char.isWhitespace).reverse)

/-- Comma-split followed by per-item strip, as in
`[c.strip() for c in s.split(',')]` (`src/app.py` line 365). -/
def splitTrim (s : String) : List String :=
  (splitComma s).map strip

/-- Parsed company list of a portfolio entry: empty when the `companies`
field is NaN or the empty string (the loop at line 364 skips those),
otherwise the comma-split, stripped items. -/
def PortfolioEntry.companyList (p : PortfolioEntry) : List String :=
  match p.companies with
  | none => []
  | some s => if s = "" then [] else splitTrim s

/-- Row of the raw vote relation built by the loop at lines 357-372. -/
structure VoteRow where
  player_id : Int
  player_name : String
  designation : String
  company_name : String
deriving DecidableEq, Repr

/-- Vote Matrix Builder, first phase (`src/app.py` lines 357-372): one row
per comma-separated company of each entry whose `companies` field is
non-NaN and non-empty (`if pd.notna(companies_str) and companies_str:`). -/
def voteData (ps : List PortfolioEntry) : List VoteRow :=
  ps.flatMap fun p =>
    match p.companies with
    | none => []
    | some s =>
      if s = "" then []
      else (splitTrim s).map fun c =>
        { player_id := p.player_id
          player_name := p.player_name
          designation := p.designation
          company_name := c }

/-- Vote row after the first left-merge (lines 378-382), which joins in the
company's `pipeline_stage, sector, cheque, lead, co_lead` by `company_name`
(`how='left'`, so an unmatched vote keeps null company fields). -/
structure MV1Row where
  player_id : Int
  player_name : String
  designation : String
  company_name : String
  pipeline_stage : Option String
  sector : Option String
  cheque : Option String
  lead : Option String
  co_lead : Option String
deriving DecidableEq, Repr

/-- Left merge of the raw vote relation with the Company table on
`company_name` (`src/app.py` lines 378-382).  A vote whose company name
matches several Company rows fans out to one row per match; a vote with no
match keeps a single row with the five joined columns null. -/
def merge1 (vd : List VoteRow) (cs : List Company) : List MV1Row :=
  vd.flatMap fun v =>
    let ms := cs.filter fun c => c.company_name = v.company_name
    if ms.isEmpty then
      [{ player_id := v.player_id
         player_name := v.player_name
         designation := v.designation
         company_name := v.company_name
         pipeline_stage := none
         sector := none
         cheque := none
         lead := none
         co_lead := none }]
    else ms.map fun c =>
      { player_id := v.player_id
        player_name := v.player_name
        designation := v.designation
        company_name := v.company_name
        pipeline_stage := c.pipeline_stage
        sector := c.sector
        cheque := c.cheque
        lead := c.lead
        co_lead := c.co_lead }

/-- Fully merged vote row: `votes_df` after the second left-merge
(lines 386-390) joins in the voter's `team` by `player_name`. -/
structure MVRow where
  player_id : Int
  player_name : String
  designation : String
  company_name : String
  pipeline_stage : Option String
  sector : Option String
  cheque : Option String
  lead : Option String
  co_lead : Option String
  team : Option String
deriving DecidableEq, Repr

/-- Left merge with `players_df[['player_name', 'team']]` on `player_name`
(`src/app.py` lines 386-390). -/
def merge2 (m1 : List MV1Row) (pl : List Person) : List MVRow :=
  m1.flatMap fun v =>
    let ms := pl.filter fun p => p.player_name = v.player_name
    if ms.isEmpty then
      [{ player_id := v.player_id
         player_name := v.player_name
         designation := v.designation
         company_name := v.company_name
         pipeline_stage := v.pipeline_stage
         sector := v.sector
         cheque := v.cheque
         lead := v.lead
         co_lead := v.co_lead
         team := none }]
    else ms.map fun p =>
      { player_id := v.player_id
        player_name := v.player_name
        designation := v.designation
        company_name := v.company_name
        pipeline_stage := v.pipeline_stage
        sector := v.sector
        cheque := v.cheque
        lead := v.lead
        co_lead := v.co_lead
        team := p.team }

/-- Complete `votes_df` after both merges (the merges are executed only when
`len(votes_df) > 0`, but on the empty relation they are the identity, so the
unconditional composition agrees with the source on every input). -/
def mergedVotes (ps : List PortfolioEntry) (cs : List Company) (pl : List Person) :
    List MVRow :=
  merge2 (merge1 (voteData ps) cs) pl

/-- Number of vote rows naming company `n`, the group size that
`votes_df.groupby('company_name').size()` assigns to `n`. -/
def countVotes (vs : List MVRow) (n : String) : ℕ :=
  (vs.filter fun v => v.company_name = n).length

/-- Sort key for `sort_values('votes', ascending=False)`: `a` may precede `b`
when `a` has at least as many votes. -/
def pairGe (a b : String × ℕ) : Prop := b.2 ≤ a.2

instance : DecidableRel pairGe :=
  fun a b => inferInstanceAs (Decidable (b.2 ≤ a.2))

instance : IsTotal (String × ℕ) pairGe :=
  ⟨fun a b => (Nat.le_total a.2 b.2).symm⟩

instance : IsTrans (String × ℕ) pairGe :=
  ⟨fun _ _ _ h1 h2 => Nat.le_trans h2 h1⟩

/-- Lines 430-431 of `src/app.py`: `company_votes`, the per-company group
sizes of the vote relation (one row per company name occurring among the
votes), sorted by vote count descending. -/
def companyVotes (vs : List MVRow) : List (String × ℕ) :=
  List.insertionSort pairGe
    (((vs.map fun v => v.company_name).dedup).map fun n => (n, countVotes vs n))

/-- Lines 434-437 of `src/app.py`: `all_companies`, the Company table's name
column left-merged with `company_votes` on `company_name`, the vote count
filled with 0 where no group matched (`fillna(0)`), sorted by vote count
descending. -/
def allCompanies (cs : List Company) (vs : List MVRow) : List (String × ℕ) :=
  List.insertionSort pairGe
    (cs.flatMap fun c =>
      let ms := (companyVotes vs).filter fun p => p.1 = c.company_name
      if ms.isEmpty then [(c.company_name, 0)]
      else ms.map fun p => (c.company_name, p.2))

/-- Value of the `vote_percentage` float column.  A finite value is an exact
multiple of 1/10 (the column is `.round(1)` of the percentage), stored as an
integer number of tenths of a percent; `inf` and `nan` are the numpy results
of dividing a positive (resp. zero) vote count by a zero
`total_players_count`. -/
inductive Flt where
  | val : ℤ → Flt
  | inf : Flt
  | nan : Flt
deriving DecidableEq, Repr

/-- Rounding of a rational to the nearest integer, ties to even — the
rounding numpy's `.round` applies. -/
def rnE (q : ℚ) : ℤ :=
  if q - ⌊q⌋ < 1/2 then ⌊q⌋
  else if 1/2 < q - ⌊q⌋ then ⌊q⌋ + 1
  else if ⌊q⌋ % 2 = 0 then ⌊q⌋ else ⌊q⌋ + 1

/-- Specification-level `x.round(1)` on an exact rational: round `10 x` to
the nearest integer (ties to even) and divide by 10. -/
def roundTo1 (q : ℚ) : ℚ :=
  (rnE (q * 10) : ℚ) / 10

/-- Integer computation of `round(votes / total * 100, 1)` in tenths of a
percent: the rounding of `votes * 1000 / total`, ties to even, carried out
on the integer quotient and remainder.  `pctTenths_eq_round` proves it equal
to the rational formula of line 752 of `src/app.py` when `total ≠ 0`. -/
def pctTenths (votes total : ℕ) : ℤ :=
  let a := votes * 1000
  let q := a / total
  let r := a % total
  if 2 * r < total then (q : ℤ)
  else if total < 2 * r then (q : ℤ) + 1
  else if q % 2 = 0 then (q : ℤ) else (q : ℤ) + 1

/-- Line 752 of `src/app.py`:
`(company_vote_percentage['votes'] / total_players_count * 100).round(1)`.
No guard precedes the division: with `total = 0` numpy produces `inf` for a
positive numerator and `nan` for a zero numerator (and `.round(1)` leaves
both unchanged). -/
def pctOf (votes total : ℕ) : Flt :=
  if total = 0 then (if votes = 0 then Flt.nan else Flt.inf)
  else Flt.val (pctTenths votes total)

/-- Comparison backing `sort_values('vote_percentage', ascending=False)`:
`x.dgeb y` says `x` may precede `y` in the descending order, with `nan`
sorted last (pandas default `na_position='last'`) and `inf` greatest. -/
def Flt.dgeb : Flt → Flt → Bool
  | _, .nan => true
  | .nan, _ => false
  | .inf, _ => true
  | .val _, .inf => false
  | .val a, .val b => decide (b ≤ a)

/-- Pandas comparison `vote_percentage >= 50` on the float column (line
755): true for `inf`, false for `nan`; 50 percent is 500 tenths. -/
def Flt.ge50 : Flt → Bool
  | .val x => decide (500 ≤ x)
  | .inf => true
  | .nan => false

/-- Pandas comparison `vote_percentage < 20` on the float column (line
756): false for both `inf` and `nan`; 20 percent is 200 tenths. -/
def Flt.lt20 : Flt → Bool
  | .val x => decide (x < 200)
  | .inf => false
  | .nan => false

/-- Row of `company_vote_percentage` (lines 751-753). -/
structure CVRow where
  company_name : String
  votes : ℕ
  vote_percentage : Flt
deriving DecidableEq, Repr

/-- Row order for `sort_values('vote_percentage', ascending=False)`. -/
def cvGe (a b : CVRow) : Prop :=
  Flt.dgeb a.vote_percentage b.vote_percentage = true

instance : DecidableRel cvGe :=
  fun a b =>
    inferInstanceAs (Decidable (Flt.dgeb a.vote_percentage b.vote_percentage = true))

instance : IsTotal CVRow cvGe :=
  ⟨fun a b => by
    unfold cvGe
    cases a.vote_percentage <;> cases b.vote_percentage <;>
      simp [Flt.dgeb] <;> exact Int.le_total _ _⟩

instance : IsTrans CVRow cvGe :=
  ⟨fun a b c => by
    unfold cvGe
    generalize a.vote_percentage = x
    generalize b.vote_percentage = y
    generalize c.vote_percentage = z
    cases x <;> cases y <;> cases z <;> simp [Flt.dgeb] <;> omega⟩

/-- Lines 750-753 of `src/app.py`: `company_vote_percentage`, a copy of
`all_companies` with the percentage column
`(votes / total_players_count * 100).round(1)` added
(`total_players_count = len(players_df)`), sorted by percentage
descending. -/
def companyVotePercentage (pl : List Person) (cs : List Company) (vs : List MVRow) :
    List CVRow :=
  List.insertionSort cvGe
    ((allCompanies cs vs).map fun p => ⟨p.1, p.2, pctOf p.2 pl.length⟩)

/-- Line 755: `high_consensus`, the rows with `vote_percentage >= 50`. -/
def highConsensus (pl : List Person) (cs : List Company) (vs : List MVRow) :
    List CVRow :=
  (companyVotePercentage pl cs vs).filter fun r => r.vote_percentage.ge50

/-- Line 756: `low_consensus`, the rows with `vote_percentage < 20` (the
`.head(5)` at line 773 truncates only the rendered rows, not this list). -/
def lowConsensus (pl : List Person) (cs : List Company) (vs : List MVRow) :
    List CVRow :=
  (companyVotePercentage pl cs vs).filter fun r => r.vote_percentage.lt20

/-- Line 405 of `src/app.py`:
`avg_votes_per_company = votes_df.groupby('company_name').size().mean() if
len(votes_df) > 0 else 0` — the mean of the per-company group sizes of the
vote relation, whose `company_name` column is `names`; both the inline
conditional and the surrounding branch (lines 402-409) yield 0 on an empty
relation. -/
def avgVotesPerCompany (names : List String) : ℚ :=
  if names = [] then 0
  else (names.dedup.map fun n => (names.count n : ℚ)).sum / (names.dedup.length : ℚ)

/-- Row of `stage_analysis` (lines 482-487): the Company table left-merged
with `all_companies[['company_name', 'votes']]` on `company_name`, the vote
count filled with 0 (`fillna(0)`).  Only the columns read by the later
sections are modelled. -/
structure StageRow where
  company_name : String
  pipeline_stage : Option String
  cheque : Option String
  lead : Option String
  co_lead : Option String
  votes : ℕ
deriving DecidableEq, Repr

/-- Lines 482-487 of `src/app.py`: `stage_analysis`. -/
def stageAnalysis (cs : List Company) (vs : List MVRow) : List StageRow :=
  cs.flatMap fun c =>
    let ms := (allCompanies cs vs).filter fun p => p.1 = c.company_name
    if ms.isEmpty then
      [⟨c.company_name, c.pipeline_stage, c.cheque, c.lead, c.co_lead, 0⟩]
    else ms.map fun p =>
      ⟨c.company_name, c.pipeline_stage, c.cheque, c.lead, c.co_lead, p.2⟩

/-- Parsed name list of a `lead` (or `co_lead`) cell: empty when the cell is
NaN or the empty string (`if pd.notna(row['lead']) and row['lead']:`),
otherwise the comma-split, stripped names. -/
def leadList : Option String → List String
  | none => []
  | some s => if s = "" then [] else splitTrim s

/-- Record appended by the `lead_votes` loop (lines 550-560). -/
structure LeadVote where
  lead : String
  pipeline_stage : Option String
  votes : ℕ
  company : String
deriving DecidableEq, Repr

/-- Lines 550-560 of `src/app.py`: `lead_votes`, one record per
comma-separated lead name of each `stage_analysis` row whose `lead` cell is
non-NaN and non-empty, each record carrying that row's full vote count. -/
def leadVotes (rows : List StageRow) : List LeadVote :=
  rows.flatMap fun r =>
    match r.lead with
    | none => []
    | some s =>
      if s = "" then []
      else (splitTrim s).map fun l =>
        ⟨l, r.pipeline_stage, r.votes, r.company_name⟩

/-- Lines 667-673 of `src/app.py`: cell of the pivot `vote_matrix` at
(player `p`, company `c`) — `aggfunc='size'` with `fill_value=0`, i.e. the
number of `votes_df` rows carrying that (player, company) pair. -/
def matrixCell (vs : List MVRow) (p c : String) : ℕ :=
  (vs.filter fun v => v.player_name = p ∧ v.company_name = c).length

/-- Cell of a dataframe row whose columns are tracked dynamically. -/
inductive Cell where
  | str : String → Cell
  | int : Int → Cell
  | null : Cell
deriving DecidableEq, Repr

/-- An optional CSV string as a cell (NaN as `null`). -/
def ocell : Option String → Cell
  | none => Cell.null
  | some s => Cell.str s

/-- Dataframe row with dynamic columns: association list column → cell. -/
abbrev DynRow := List (String × Cell)

/-- Pandas label access `row[k]` on a row `Series`: the cell when the column
exists, a `KeyError` when it is absent. -/
def rowGet (r : DynRow) (k : String) : Except String Cell :=
  match r.find? fun kv => kv.1 == k with
  | some kv => Except.ok kv.2
  | none => Except.error ("KeyError: " ++ k)

/-- Row of `votes_with_lead` (lines 819-823 of `src/app.py`).  `votes_df`
already carries a `lead` column from the merge at line 378, and the right
table `companies_df[['company_name', 'lead']]` brings another one, so the
merge renames the overlapping pair to `lead_x` (left) and `lead_y` (right)
with its default suffixes — the merged frame has no `lead` column. -/
def vwlRow (v : MVRow) (leadY : Cell) : DynRow :=
  [("player_id", Cell.int v.player_id), ("player_name", Cell.str v.player_name),
   ("designation", Cell.str v.designation), ("company_name", Cell.str v.company_name),
   ("pipeline_stage", ocell v.pipeline_stage), ("sector", ocell v.sector),
   ("cheque", ocell v.cheque), ("lead_x", ocell v.lead),
   ("co_lead", ocell v.co_lead), ("team", ocell v.team), ("lead_y", leadY)]

/-- Lines 819-823 of `src/app.py`: `votes_with_lead`, the left merge of
`votes_df` with `companies_df[['company_name', 'lead']]` on
`company_name`. -/
def votesWithLead (vs : List MVRow) (cs : List Company) : List DynRow :=
  vs.flatMap fun v =>
    let ms := cs.filter fun c => c.company_name = v.company_name
    if ms.isEmpty then [vwlRow v Cell.null]
    else ms.map fun c => vwlRow v (ocell c.lead)

/-- Python equality `lead_team == voter_team` of line 835: only two actual
strings can compare equal; `NaN == anything` (either side) is False. -/
def sameTeam : Option String → Cell → Bool
  | some t, Cell.str u => t == u
  | _, _ => false

/-- Body of the alignment loop for one vote row (lines 828-839): read
`vote['lead']` — on `votes_with_lead` this is a `KeyError` —, skip a NaN or
empty cell, split and strip the lead names, keep those matching a Person row
(first match, `iloc[0]`), and classify each kept pair by comparing the
lead's `team` with `vote['team']`.  Only the `same_pod` label of each
appended record is kept (its `count` field is the constant 1).  A numeric
lead cell cannot occur; that arm returns no pairs. -/
def classifyVote (pl : List Person) (row : DynRow) : Except String (List String) := do
  let leadCell ← rowGet row "lead"
  match leadCell with
  | Cell.str s =>
    if s = "" then pure []
    else
      (splitTrim s).foldlM (fun acc l =>
        match pl.filter fun q => q.player_name = l with
        | [] => pure acc
        | q :: _ => do
          let voterTeam ← rowGet row "team"
          pure (acc ++ [if sameTeam q.team voterTeam then "Same Pod" else "Cross-Pod"]))
        []
  | _ => pure []

/-- Lines 826-839 of `src/app.py`: the `alignment_data` loop over
`votes_with_lead.iterrows()`. -/
def alignmentData (pl : List Person) (rows : List DynRow) : Except String (List String) :=
  rows.foldlM (fun acc row => do
    let cls ← classifyVote pl row
    pure (acc ++ cls)) []

/-- Fixture: a person (used to instantiate the general theorems). -/
def personAlice : Person :=
  ⟨1, "Alice", some "Partner", some "Core - FinTech Pod"⟩

/-- Fixture: a company led by Alice. -/
def companyAcme : Company :=
  ⟨1, "Acme", some "IC", some "First-time", some "FinTech", some "Formation",
   some "Core", some "Alice", none, none⟩

/-- Fixture: a company whose only lead, "Bob", matches no Person row. -/
def companyAcmeLedByBob : Company :=
  ⟨1, "Acme", some "IC", some "First-time", some "FinTech", some "Formation",
   some "Core", some "Bob", none, none⟩

/-- Fixture: a second company that shares the name "Acme". -/
def companyAcmeDup : Company :=
  ⟨2, "Acme", some "Wired", some "Seasoned", some "SaaS/AI", some "Traction",
   some "Core", some "Alice", none, none⟩

/-- Fixture: Alice's portfolio entry voting for Acme. -/
def entryAlice : PortfolioEntry :=
  ⟨1, "Alice", "Partner", some "Acme"⟩

/-- Fixture: a portfolio entry voting for a company name absent from the
Company table. -/
def entryGhost : PortfolioEntry :=
  ⟨1, "Alice", "Partner", some "Ghost"⟩

end BluFunnel

namespace BluFunnel

/-- Rewriting of `voteData` through `PortfolioEntry.companyList`. -/
theorem voteData_eq (ps : List PortfolioEntry) :
    voteData ps = ps.flatMap fun p => p.companyList.map fun c =>
      { player_id := p.player_id, player_name := p.player_name,
        designation := p.designation, company_name := c } := by
  unfold voteData
  congr 1
  funext p
  unfold PortfolioEntry.companyList
  cases p.companies with
  | none => rfl
  | some s =>
    by_cases hs : s = "" <;> simp [hs]

/-- Claim C1: the raw vote relation has exactly one
`{player_id, player_name, designation, company_name}` row per comma-separated
company of each entry's non-empty companies list, hence its row count is the
sum of the entries' company-list lengths, an entry with an empty or missing
`companies` field contributing zero rows. -/
theorem c1_vote_relation_row_count (ps : List PortfolioEntry) :
    (voteData ps).length = (ps.map fun p => p.companyList.length).sum ∧
    ∀ p ∈ ps, ∀ c ∈ p.companyList,
      ({ player_id := p.player_id, player_name := p.player_name,
         designation := p.designation, company_name := c } : VoteRow) ∈ voteData ps := by
  rw [voteData_eq]
  constructor
  · rw [List.length_flatMap]
    simp only [Function.comp_def, List.length_map]
  · intro p hp c hc
    exact List.mem_flatMap.mpr ⟨p, hp, List.mem_map.mpr ⟨c, hc, rfl⟩⟩

/-- Concrete instantiation of `c1_vote_relation_row_count`. -/
theorem c1_witness :
    ({ player_id := 1, player_name := "Alice", designation := "Partner",
       company_name := "Zeta" } : VoteRow) ∈
      voteData [{ player_id := 1, player_name := "Alice", designation := "Partner",
                  companies := some "Acme, Zeta" }] :=
  (c1_vote_relation_row_count _).2
    { player_id := 1, player_name := "Alice", designation := "Partner",
      companies := some "Acme, Zeta" }
    (by decide) "Zeta" (by decide)

/-- Membership in `company_votes` determines the vote count: every row is
`(n, countVotes vs n)` for a company name `n` occurring among the votes. -/
theorem mem_companyVotes {vs : List MVRow} {p : String × ℕ}
    (hp : p ∈ companyVotes vs) :
    p.2 = countVotes vs p.1 ∧ p.1 ∈ vs.map fun v => v.company_name := by
  rw [companyVotes, (List.perm_insertionSort pairGe _).mem_iff] at hp
  rcases List.mem_map.mp hp with ⟨n, hn, rfl⟩
  exact ⟨rfl, List.mem_dedup.mp hn⟩

/-- Company names occurring among the votes do occur in `company_votes`. -/
theorem companyVotes_mem {vs : List MVRow} {n : String}
    (hn : n ∈ vs.map fun v => v.company_name) :
    (n, countVotes vs n) ∈ companyVotes vs := by
  rw [companyVotes, (List.perm_insertionSort pairGe _).mem_iff]
  exact List.mem_map.mpr ⟨n, List.mem_dedup.mpr hn, rfl⟩

/-- Company names are unique within `company_votes` (it is a groupby result). -/
theorem countP_key_companyVotes (vs : List MVRow) (n : String) :
    (companyVotes vs).countP (fun p => p.1 = n) ≤ 1 := by
  rw [companyVotes, (List.perm_insertionSort pairGe _).countP_eq, List.countP_map]
  have hcongr :
      ((vs.map fun v => v.company_name).dedup).countP
          ((fun p : String × ℕ => decide (p.1 = n)) ∘ fun m => (m, countVotes vs m))
        = ((vs.map fun v => v.company_name).dedup).countP (fun m => m == n) := by
    apply List.countP_congr
    intro m _
    simp [Function.comp]
  rw [hcongr]
  have : ((vs.map fun v => v.company_name).dedup).countP (fun m => m == n)
      = ((vs.map fun v => v.company_name).dedup).count n := rfl
  rw [this]
  exact List.nodup_iff_count_le_one.mp (List.nodup_dedup _) n

/-- Collapsing the left merge in `all_companies`: since `company_votes` has
one row per company name, the merge-and-fill amounts to pairing every
Company row with its vote count. -/
theorem allCompanies_eq (cs : List Company) (vs : List MVRow) :
    allCompanies cs vs = List.insertionSort pairGe
      (cs.map fun c => (c.company_name, countVotes vs c.company_name)) := by
  rw [allCompanies]
  congr 1
  have hbody : ∀ c : Company,
      (let ms := (companyVotes vs).filter fun p => p.1 = c.company_name
       if ms.isEmpty then [(c.company_name, 0)]
       else ms.map fun p => (c.company_name, p.2))
        = [(c.company_name, countVotes vs c.company_name)] := by
    intro c
    by_cases hms : ((companyVotes vs).filter fun p => p.1 = c.company_name) = []
    · have h0 : countVotes vs c.company_name = 0 := by
        by_contra h0
        have hmem : c.company_name ∈ vs.map fun v => v.company_name := by
          rcases List.exists_mem_of_length_pos (Nat.pos_of_ne_zero h0) with ⟨v, hv⟩
          have hv' := List.mem_filter.mp hv
          exact List.mem_map.mpr ⟨v, hv'.1, of_decide_eq_true hv'.2⟩
        have : ((c.company_name, countVotes vs c.company_name) : String × ℕ)
            ∈ (companyVotes vs).filter fun p => p.1 = c.company_name :=
          List.mem_filter.mpr ⟨companyVotes_mem hmem, by simp⟩
        rw [hms] at this
        exact absurd this (List.not_mem_nil _)
      simp only [hms, List.isEmpty_nil, if_pos, h0]
    · have hlen1 : ((companyVotes vs).filter fun p => p.1 = c.company_name).length = 1 := by
        have hle : ((companyVotes vs).filter fun p => p.1 = c.company_name).length ≤ 1 := by
          rw [← List.countP_eq_length_filter]
          exact countP_key_companyVotes vs c.company_name
        have hpos : 0 < ((companyVotes vs).filter fun p => p.1 = c.company_name).length :=
          List.length_pos.mpr hms
        omega
      rcases List.length_eq_one.mp hlen1 with ⟨p0, hp0⟩
      have hp0mem : p0 ∈ (companyVotes vs).filter fun p => p.1 = c.company_name := by
        rw [hp0]; exact List.mem_singleton_self p0
      have hp0' := List.mem_filter.mp hp0mem
      have hval := (mem_companyVotes hp0'.1).1
      have hkey : p0.1 = c.company_name := of_decide_eq_true hp0'.2
      simp only [hp0, List.map_cons, List.map_nil]
      rw [← hkey, ← hval]
      simp
  calc (cs.flatMap fun c =>
          let ms := (companyVotes vs).filter fun p => p.1 = c.company_name
          if ms.isEmpty then [(c.company_name, 0)]
          else ms.map fun p => (c.company_name, p.2))
      = cs.flatMap fun c => [(c.company_name, countVotes vs c.company_name)] := by
        exact List.flatMap_congr fun c _ => hbody c
    _ = cs.map fun c => (c.company_name, countVotes vs c.company_name) :=
        (List.map_eq_flatMap _ cs).symm

/-- Claim C2: the zero-vote-filled company vote table has exactly one row per
Company row — its row count equals the Company table's row count — and a
company with no matching votes appears with an explicit count of 0 rather
than being dropped. -/
theorem c2_zero_fill_row_count (cs : List Company) (vs : List MVRow) :
    (allCompanies cs vs).length = cs.length ∧
    (∀ c ∈ cs, (c.company_name, countVotes vs c.company_name) ∈ allCompanies cs vs) ∧
    ∀ c ∈ cs, (∀ v ∈ vs, v.company_name ≠ c.company_name) →
      (c.company_name, 0) ∈ allCompanies cs vs := by
  rw [allCompanies_eq]
  refine ⟨?_, ?_, ?_⟩
  · rw [(List.perm_insertionSort pairGe _).length_eq, List.length_map]
  · intro c hc
    rw [(List.perm_insertionSort pairGe _).mem_iff]
    exact List.mem_map.mpr ⟨c, hc, rfl⟩
  · intro c hc hnone
    have h0 : countVotes vs c.company_name = 0 := by
      rw [countVotes, List.length_eq_zero, List.filter_eq_nil_iff]
      intro v hv
      simp [hnone v hv]
    rw [(List.perm_insertionSort pairGe _).mem_iff]
    exact List.mem_map.mpr ⟨c, hc, by rw [h0]⟩

/-- Concrete instantiation of `c2_zero_fill_row_count`: a voteless company
appears with vote count 0. -/
theorem c2_witness :
    (("Acme", 0) : String × ℕ) ∈ allCompanies [companyAcme] [] :=
  (c2_zero_fill_row_count [companyAcme] []).2.2 companyAcme (by decide) (by decide)

/-- Equivalence of the integer percentage computation with the source's
rational formula `(votes / total * 100).round(1)` whenever the Person table
is non-empty (the only case in which the float division is finite). -/
theorem pctTenths_eq_round (votes total : ℕ) (h : total ≠ 0) :
    (pctTenths votes total : ℚ) / 10 = roundTo1 ((votes : ℚ) / (total : ℚ) * 100) := by
  have ht : (0 : ℚ) < total := by exact_mod_cast Nat.pos_of_ne_zero h
  have harg : (votes : ℚ) / (total : ℚ) * 100 * 10 = ((votes * 1000 : ℕ) : ℚ) / total := by
    push_cast
    ring
  have hfl : ⌊((votes * 1000 : ℕ) : ℚ) / total⌋ = ((votes * 1000 / total : ℕ) : ℤ) := by
    rw [← Int.natCast_floor_eq_floor (by positivity), Nat.floor_div_eq_div]
  have hdm : total * (votes * 1000 / total) + votes * 1000 % total = votes * 1000 :=
    Nat.div_add_mod _ _
  have hcastQ : ((total : ℚ)) * ((votes * 1000 / total : ℕ) : ℚ)
      + ((votes * 1000 % total : ℕ) : ℚ) = ((votes * 1000 : ℕ) : ℚ) := by
    exact_mod_cast congrArg (fun n : ℕ => (n : ℚ)) hdm
  have hfr : ((votes * 1000 : ℕ) : ℚ) / total - ((votes * 1000 / total : ℕ) : ℚ)
      = ((votes * 1000 % total : ℕ) : ℚ) / total := by
    rw [eq_div_iff (ne_of_gt ht), sub_mul, div_mul_cancel₀ _ (ne_of_gt ht)]
    linarith [hcastQ]
  have hlt : (((votes * 1000 % total : ℕ) : ℚ) / total < 1 / 2)
      ↔ 2 * (votes * 1000 % total) < total := by
    rw [div_lt_div_iff₀ ht (by norm_num), one_mul, mul_comm]
    exact_mod_cast Iff.rfl
  have hgt : ((1 : ℚ) / 2 < ((votes * 1000 % total : ℕ) : ℚ) / total)
      ↔ total < 2 * (votes * 1000 % total) := by
    rw [div_lt_div_iff₀ (by norm_num) ht, one_mul, mul_comm]
    exact_mod_cast Iff.rfl
  have hpar : (((votes * 1000 / total : ℕ) : ℤ) % 2 = 0)
      ↔ (votes * 1000 / total) % 2 = 0 := by omega
  have key : pctTenths votes total = rnE (((votes * 1000 : ℕ) : ℚ) / total) := by
    simp only [pctTenths, rnE, hfl, Int.cast_natCast, hfr, hlt, hgt, hpar]
  rw [roundTo1, harg, key]

/-- Claim C3: the Consensus Classifier puts a company row into the
high-consensus bucket exactly when its percentage compares `>= 50` and into
the low-consensus bucket exactly when it compares `< 20`; the buckets are
disjoint, a finite percentage in `[20, 50)` lands in neither, and both
buckets are sorted by descending percentage. -/
theorem c3_consensus_buckets (pl : List Person) (cs : List Company) (vs : List MVRow) :
    (∀ r : CVRow, r ∈ highConsensus pl cs vs ↔
        r ∈ companyVotePercentage pl cs vs ∧ r.vote_percentage.ge50 = true) ∧
    (∀ r : CVRow, r ∈ lowConsensus pl cs vs ↔
        r ∈ companyVotePercentage pl cs vs ∧ r.vote_percentage.lt20 = true) ∧
    (∀ r : CVRow, ¬(r ∈ highConsensus pl cs vs ∧ r ∈ lowConsensus pl cs vs)) ∧
    (∀ r ∈ companyVotePercentage pl cs vs, ∀ x : ℤ, r.vote_percentage = Flt.val x →
        200 ≤ x → x < 500 → r ∉ highConsensus pl cs vs ∧ r ∉ lowConsensus pl cs vs) ∧
    List.Sorted cvGe (highConsensus pl cs vs) ∧
    List.Sorted cvGe (lowConsensus pl cs vs) := by
  have hmemh : ∀ r : CVRow, r ∈ highConsensus pl cs vs ↔
      r ∈ companyVotePercentage pl cs vs ∧ r.vote_percentage.ge50 = true :=
    fun r => List.mem_filter
  have hmeml : ∀ r : CVRow, r ∈ lowConsensus pl cs vs ↔
      r ∈ companyVotePercentage pl cs vs ∧ r.vote_percentage.lt20 = true :=
    fun r => List.mem_filter
  have hsorted : List.Sorted cvGe (companyVotePercentage pl cs vs) :=
    List.sorted_insertionSort cvGe _
  refine ⟨hmemh, hmeml, ?_, ?_, ?_, ?_⟩
  · rintro r ⟨hh, hl⟩
    have h1 := ((hmemh r).mp hh).2
    have h2 := ((hmeml r).mp hl).2
    cases hv : r.vote_percentage <;> rw [hv] at h1 h2 <;>
      simp [Flt.ge50, Flt.lt20] at h1 h2
    omega
  · intro r _ x hx h200 h500
    constructor
    · intro hh
      have h1 := ((hmemh r).mp hh).2
      rw [hx] at h1
      simp [Flt.ge50] at h1
      omega
    · intro hl
      have h2 := ((hmeml r).mp hl).2
      rw [hx] at h2
      simp [Flt.lt20] at h2
      omega
  · exact List.Pairwise.sublist (List.filter_sublist _) hsorted
  · exact List.Pairwise.sublist (List.filter_sublist _) hsorted

/-- Concrete instantiation of `c3_consensus_buckets`: with one voter among
one person, Acme's percentage is 100.0 and it is in the high bucket. -/
theorem c3_witness :
    (⟨"Acme", 1, Flt.val 1000⟩ : CVRow) ∈
      highConsensus [personAlice] [companyAcme]
        (mergedVotes [entryAlice] [companyAcme] [personAlice]) :=
  ((c3_consensus_buckets [personAlice] [companyAcme]
      (mergedVotes [entryAlice] [companyAcme] [personAlice])).1 _).mpr (by decide)

/-- Claim C5 fails on the code: with an empty Person table and one vote for
Acme, the percentage column holds `inf`, not 0 — line 752 divides without
any guard on `total_players_count`. -/
theorem c5_counterexample :
    ¬ ∀ r ∈ companyVotePercentage ([] : List Person) [companyAcme]
        (mergedVotes [entryAlice] [companyAcme] []),
      r.vote_percentage = Flt.val 0 := by
  decide

/-- Amended C5: with an empty Person table the classifier does not raise,
but no guard substitutes 0: following numpy float semantics the percentage
is `inf` for a company with at least one vote and `nan` for a company with
none. -/
theorem c5_empty_person_percentages (pl : List Person) (cs : List Company)
    (vs : List MVRow) (hpl : pl = []) :
    ∀ r ∈ companyVotePercentage pl cs vs,
      r.vote_percentage = if r.votes = 0 then Flt.nan else Flt.inf := by
  subst hpl
  intro r hr
  rw [companyVotePercentage, (List.perm_insertionSort cvGe _).mem_iff] at hr
  rcases List.mem_map.mp hr with ⟨p, _, rfl⟩
  by_cases hz : p.2 = 0 <;> simp [pctOf, hz]

/-- Concrete instantiation of `c5_empty_person_percentages`. -/
theorem c5_witness :
    (⟨"Acme", 1, Flt.inf⟩ : CVRow).vote_percentage
      = if (⟨"Acme", 1, Flt.inf⟩ : CVRow).votes = 0 then Flt.nan else Flt.inf :=
  c5_empty_person_percentages [] [companyAcme]
    (mergedVotes [entryAlice] [companyAcme] []) rfl _ (by decide)

/-- Claim C10: the mean-votes-per-company metric equals the total vote count
divided by the number of distinct voted company names — its denominator
counts only companies with at least one vote — and equals 0 on an empty
vote relation. -/
theorem c10_avg_votes (vs : List MVRow) :
    avgVotesPerCompany (vs.map fun v => v.company_name)
      = (vs.length : ℚ) / (((vs.map fun v => v.company_name).dedup.length : ℚ)) ∧
    (vs = [] → avgVotesPerCompany (vs.map fun v => v.company_name) = 0) ∧
    ∀ n ∈ (vs.map fun v => v.company_name).dedup, 1 ≤ countVotes vs n := by
  refine ⟨?_, ?_, ?_⟩
  · by_cases hn : (vs.map fun v => v.company_name) = []
    · rw [avgVotesPerCompany, if_pos hn]
      rw [List.map_eq_nil_iff] at hn
      rw [hn]
      simp
    · rw [avgVotesPerCompany, if_neg hn]
      congr 1
      calc ((vs.map fun v => v.company_name).dedup.map
              fun n => ((vs.map fun v => v.company_name).count n : ℚ)).sum
          = (((vs.map fun v => v.company_name).dedup.map
              fun n => (vs.map fun v => v.company_name).count n).map
                fun k : ℕ => (k : ℚ)).sum := by
            rw [List.map_map]
            rfl
        _ = ((((vs.map fun v => v.company_name).dedup.map
              fun n => (vs.map fun v => v.company_name).count n).sum : ℕ) : ℚ) :=
            (Nat.cast_list_sum _).symm
        _ = ((vs.map fun v => v.company_name).length : ℚ) := by
            rw [List.sum_map_count_dedup_eq_length]
        _ = (vs.length : ℚ) := by rw [List.length_map]
  · intro h
    rw [h]
    simp [avgVotesPerCompany]
  · intro n hn
    rcases List.mem_map.mp (List.mem_dedup.mp hn) with ⟨v, hv, rfl⟩
    have hmem : v ∈ vs.filter fun w => w.company_name = v.company_name :=
      List.mem_filter.mpr ⟨hv, by simp⟩
    exact List.length_pos.mpr (List.ne_nil_of_mem hmem)

/-- Concrete instantiation of `c10_avg_votes`: a voted company contributes a
positive group size. -/
theorem c10_witness :
    1 ≤ countVotes (mergedVotes [entryAlice] [companyAcme] [personAlice]) "Acme" :=
  (c10_avg_votes (mergedVotes [entryAlice] [companyAcme] [personAlice])).2.2
    "Acme" (by decide)

/-- Rewriting of `leadVotes` through `leadList`. -/
theorem leadVotes_eq (rows : List StageRow) :
    leadVotes rows = rows.flatMap fun r => (leadList r.lead).map fun l =>
      ⟨l, r.pipeline_stage, r.votes, r.company_name⟩ := by
  unfold leadVotes
  congr 1
  funext r
  unfold leadList
  cases r.lead with
  | none => rfl
  | some s =>
    by_cases hs : s = "" <;> simp [hs]

/-- Counting by a decidable-equality predicate is counting occurrences. -/
theorem countP_eq_count (ns : List String) (l : String) :
    (ns.countP fun nm => nm = l) = ns.count l := by
  have h : (ns.countP fun nm => nm = l) = ns.countP fun nm => nm == l := by
    apply List.countP_congr
    intro m _
    simp
  rw [h]
  rfl

/-- Claim C7: in the per-lead attribution, every stage-analysis row emits
one record with its full vote count per name in its parsed lead list, so the
group of a lead name `l` has one member per occurrence of `l` in a row's
lead list and the group's vote total counts each such row's votes in full
(not divided by the number of leads). -/
theorem c7_lead_attribution (rows : List StageRow) (l : String) :
    (∀ r ∈ rows, ∀ nm ∈ leadList r.lead,
      (⟨nm, r.pipeline_stage, r.votes, r.company_name⟩ : LeadVote) ∈ leadVotes rows) ∧
    ((leadVotes rows).filter fun x => x.lead = l).length
      = (rows.map fun r => (leadList r.lead).count l).sum ∧
    (((leadVotes rows).filter fun x => x.lead = l).map fun x => x.votes).sum
      = (rows.map fun r => (leadList r.lead).count l * r.votes).sum := by
  rw [leadVotes_eq]
  refine ⟨?_, ?_, ?_⟩
  · intro r hr nm hnm
    exact List.mem_flatMap.mpr ⟨r, hr, List.mem_map.mpr ⟨nm, hnm, rfl⟩⟩
  · induction rows with
    | nil => rfl
    | cons r rs ih =>
      rw [List.flatMap_cons, List.filter_append, List.length_append, ih,
        List.map_cons, List.sum_cons]
      congr 1
      rw [List.filter_map, List.length_map, ← List.countP_eq_length_filter]
      rw [show ((fun x : LeadVote => decide (x.lead = l)) ∘ fun nm =>
            (⟨nm, r.pipeline_stage, r.votes, r.company_name⟩ : LeadVote))
          = fun nm => decide (nm = l) from rfl]
      exact countP_eq_count _ l
  · induction rows with
    | nil => rfl
    | cons r rs ih =>
      rw [List.flatMap_cons, List.filter_append, List.map_append, List.sum_append, ih,
        List.map_cons, List.sum_cons]
      congr 1
      rw [List.filter_map, List.map_map]
      rw [show ((fun x : LeadVote => decide (x.lead = l)) ∘ fun nm =>
            (⟨nm, r.pipeline_stage, r.votes, r.company_name⟩ : LeadVote))
          = fun nm => decide (nm = l) from rfl]
      rw [show ((fun x : LeadVote => x.votes) ∘ fun nm =>
            (⟨nm, r.pipeline_stage, r.votes, r.company_name⟩ : LeadVote))
          = fun _ => r.votes from rfl]
      rw [List.map_const', List.sum_replicate, smul_eq_mul,
        ← List.countP_eq_length_filter, countP_eq_count]

/-- Concrete instantiation of `c7_lead_attribution`: a row with two leads
produces a record with the full vote count for each of them. -/
theorem c7_witness :
    (⟨"Bob", some "IC", 3, "Acme"⟩ : LeadVote) ∈
      leadVotes [⟨"Acme", some "IC", some "Core", some "Alice, Bob", none, 3⟩] :=
  (c7_lead_attribution [⟨"Acme", some "IC", some "Core", some "Alice, Bob", none, 3⟩]
      "Bob").1
    ⟨"Acme", some "IC", some "Core", some "Alice, Bob", none, 3⟩ (by decide)
    "Bob" (by decide)

/-- Claim C8 fails on the code: two Company rows may share a name — the
admin form does not enforce unique company names — and then the merge at
line 378 duplicates the vote row, so a matrix cell reaches 2 even though
the voter's portfolio names Acme only once (set semantics upstream hold). -/
theorem c8_counterexample :
    ¬ (matrixCell (mergedVotes [entryAlice] [companyAcme, companyAcmeDup] [personAlice])
        "Alice" "Acme" ≤ 1) := by
  decide

/-- Counting occurrences of a value in a duplicate-free list: at most 1. -/
theorem countP_eq_self_le_one {α : Type} [DecidableEq α] {l : List α}
    (h : l.Nodup) (a : α) :
    (l.countP fun x => x = a) ≤ 1 := by
  induction l with
  | nil => simp
  | cons b bs ih =>
    rw [List.countP_cons]
    rcases List.nodup_cons.mp h with ⟨hb, hbs⟩
    by_cases hba : b = a
    · subst hba
      have hz : (bs.countP fun x => x = b) = 0 := by
        rw [List.countP_eq_zero]
        intro x hx
        simp only [decide_eq_true_eq]
        intro hxb
        exact hb (hxb ▸ hx)
      simp [hz]
    · simp [hba, ih hbs]

/-- Amended C8: a matrix cell equals the number of vote-relation rows for
that (player, company) pair; it is 1-if-voted-else-0 and never exceeds 1
exactly under the hypothesis the claim invokes — that the relation holds no
duplicate (player_name, company_name) pair — which set semantics on the
companies lists guarantee only when company names are unique in the Company
table and player names are unique among voters. -/
theorem c8_matrix_cells (vs : List MVRow)
    (hnd : (vs.map fun v => (v.player_name, v.company_name)).Nodup)
    (p c : String) :
    matrixCell vs p c
      = (if (p, c) ∈ vs.map fun v => (v.player_name, v.company_name) then 1 else 0) ∧
    matrixCell vs p c ≤ 1 := by
  have hcell : matrixCell vs p c
      = (vs.map fun v => (v.player_name, v.company_name)).countP fun x => x = (p, c) := by
    rw [matrixCell, ← List.countP_eq_length_filter, List.countP_map]
    apply List.countP_congr
    intro v _
    simp [Function.comp, Prod.ext_iff]
  have hle := countP_eq_self_le_one hnd (p, c)
  constructor
  · rw [hcell]
    by_cases hmem : (p, c) ∈ vs.map fun v => (v.player_name, v.company_name)
    · rw [if_pos hmem]
      have hpos : 0 < (vs.map fun v => (v.player_name, v.company_name)).countP
          fun x => x = (p, c) :=
        List.countP_pos_iff.mpr ⟨(p, c), hmem, by simp⟩
      omega
    · rw [if_neg hmem]
      rw [List.countP_eq_zero]
      intro x hx
      simp only [decide_eq_true_eq]
      intro hxe
      exact hmem (hxe ▸ hx)
  · rw [hcell]
    exact hle

/-- Concrete instantiation of `c8_matrix_cells`: with unique company names
the (Alice, Acme) cell is exactly 1. -/
theorem c8_witness :
    matrixCell (mergedVotes [entryAlice] [companyAcme] [personAlice]) "Alice" "Acme"
      = (if ("Alice", "Acme") ∈ (mergedVotes [entryAlice] [companyAcme] [personAlice]).map
            fun v => (v.player_name, v.company_name) then 1 else 0) ∧
    matrixCell (mergedVotes [entryAlice] [companyAcme] [personAlice]) "Alice" "Acme" ≤ 1 :=
  c8_matrix_cells (mergedVotes [entryAlice] [companyAcme] [personAlice])
    (by decide) "Alice" "Acme"

/-- A vote on a company name matching no Company row survives `merge1` as a
single row whose five joined columns are null. -/
theorem merge1_no_match {vd : List VoteRow} {cs : List Company} {v : VoteRow}
    (hv : v ∈ vd) (hghost : ∀ comp ∈ cs, comp.company_name ≠ v.company_name) :
    ({ player_id := v.player_id, player_name := v.player_name,
       designation := v.designation, company_name := v.company_name,
       pipeline_stage := none, sector := none, cheque := none,
       lead := none, co_lead := none } : MV1Row) ∈ merge1 vd cs := by
  rw [merge1]
  refine List.mem_flatMap.mpr ⟨v, hv, ?_⟩
  have hnil : (cs.filter fun c => c.company_name = v.company_name) = [] := by
    rw [List.filter_eq_nil_iff]
    intro comp hcomp
    simp [hghost comp hcomp]
  simp [hnil]

/-- `merge2` keeps every row, preserving all columns except the new
`team`. -/
theorem merge2_preserves {m1 : List MV1Row} {pl : List Person} {r : MV1Row}
    (hr : r ∈ m1) :
    ∃ row ∈ merge2 m1 pl, row.player_id = r.player_id ∧
      row.player_name = r.player_name ∧ row.designation = r.designation ∧
      row.company_name = r.company_name ∧ row.pipeline_stage = r.pipeline_stage ∧
      row.sector = r.sector ∧ row.cheque = r.cheque ∧ row.lead = r.lead ∧
      row.co_lead = r.co_lead := by
  rw [merge2]
  cases hms : pl.filter fun p => p.player_name = r.player_name with
  | nil =>
    refine ⟨{ player_id := r.player_id
              player_name := r.player_name
              designation := r.designation
              company_name := r.company_name
              pipeline_stage := r.pipeline_stage
              sector := r.sector
              cheque := r.cheque
              lead := r.lead
              co_lead := r.co_lead
              team := none },
      List.mem_flatMap.mpr ⟨r, hr, ?_⟩, rfl, rfl, rfl, rfl, rfl, rfl, rfl, rfl, rfl⟩
    simp only [hms, List.isEmpty_nil, if_pos]
    exact List.mem_singleton_self _
  | cons q qs =>
    refine ⟨{ player_id := r.player_id
              player_name := r.player_name
              designation := r.designation
              company_name := r.company_name
              pipeline_stage := r.pipeline_stage
              sector := r.sector
              cheque := r.cheque
              lead := r.lead
              co_lead := r.co_lead
              team := q.team },
      List.mem_flatMap.mpr ⟨r, hr, ?_⟩, rfl, rfl, rfl, rfl, rfl, rfl, rfl, rfl, rfl⟩
    simp only [hms, List.isEmpty_cons, Bool.false_eq_true, if_false]
    exact List.mem_map.mpr ⟨q, List.mem_cons_self q qs, rfl⟩

/-- Claim C6: a portfolio company name absent from the Company table still
yields a vote row — with all five joined company columns null — and does not
appear in the zero-vote-filled company vote table; no error is raised (every
involved transform is total). -/
theorem c6_dangling_reference (ps : List PortfolioEntry) (cs : List Company)
    (pl : List Person) (p : PortfolioEntry) (hp : p ∈ ps) (c : String)
    (hc : c ∈ p.companyList) (hghost : ∀ comp ∈ cs, comp.company_name ≠ c) :
    (∃ row ∈ mergedVotes ps cs pl, row.company_name = c ∧
      row.pipeline_stage = none ∧ row.sector = none ∧ row.cheque = none ∧
      row.lead = none ∧ row.co_lead = none) ∧
    c ∉ (allCompanies cs (mergedVotes ps cs pl)).map Prod.fst := by
  constructor
  · have hvd : ({ player_id := p.player_id
                  player_name := p.player_name
                  designation := p.designation
                  company_name := c } : VoteRow) ∈ voteData ps := by
      rw [voteData_eq]
      exact List.mem_flatMap.mpr ⟨p, hp, List.mem_map.mpr ⟨c, hc, rfl⟩⟩
    have hm1 := merge1_no_match hvd hghost
    rcases merge2_preserves hm1 with ⟨row, hrow, hfields⟩
    exact ⟨row, hrow, hfields.2.2.2.1, hfields.2.2.2.2.1, hfields.2.2.2.2.2.1,
      hfields.2.2.2.2.2.2.1, hfields.2.2.2.2.2.2.2.1, hfields.2.2.2.2.2.2.2.2⟩
  · intro hmem
    rcases List.mem_map.mp hmem with ⟨pair, hpair, hfst⟩
    rw [allCompanies_eq, (List.perm_insertionSort pairGe _).mem_iff] at hpair
    rcases List.mem_map.mp hpair with ⟨comp, hcomp, rfl⟩
    exact hghost comp hcomp hfst

/-- Concrete instantiation of `c6_dangling_reference` at the Ghost
scenario. -/
theorem c6_witness :
    (∃ row ∈ mergedVotes [entryGhost] [companyAcme] [personAlice],
      row.company_name = "Ghost" ∧ row.pipeline_stage = none ∧ row.sector = none ∧
      row.cheque = none ∧ row.lead = none ∧ row.co_lead = none) ∧
    "Ghost" ∉ (allCompanies [companyAcme]
      (mergedVotes [entryGhost] [companyAcme] [personAlice])).map Prod.fst :=
  c6_dangling_reference [entryGhost] [companyAcme] [personAlice] entryGhost
    (by decide) "Ghost" (by decide) (by decide)

/-- Binding an `Except` error short-circuits. -/
theorem error_bind {α β : Type} (e : String) (f : α → Except String β) :
    (Except.error e >>= f) = Except.error e :=
  rfl

/-- Every row `votesWithLead` produces lacks the `lead` label (it carries
`lead_x` and `lead_y` instead), so reading `vote['lead']` is a
`KeyError`. -/
theorem rowGet_lead_votesWithLead {vs : List MVRow} {cs : List Company} {row : DynRow}
    (hrow : row ∈ votesWithLead vs cs) :
    rowGet row "lead" = Except.error "KeyError: lead" := by
  rw [votesWithLead] at hrow
  rcases List.mem_flatMap.mp hrow with ⟨v, _, hbody⟩
  by_cases hms : (cs.filter fun c => c.company_name = v.company_name).isEmpty
  · rw [if_pos hms] at hbody
    rcases List.mem_singleton.mp hbody with rfl
    rfl
  · rw [if_neg hms] at hbody
    rcases List.mem_map.mp hbody with ⟨comp, _, rfl⟩
    rfl

/-- The alignment loop of lines 826-839 raises `KeyError: 'lead'` on its
first row whenever at least one merged vote row exists, because the merge at
line 819 renamed the `lead` column away.  The guard at line 841 and the
`same_pod_pct` division at line 855 are never reached. -/
theorem alignmentData_error (pl : List Person) (vs : List MVRow) (cs : List Company)
    (hne : votesWithLead vs cs ≠ []) :
    alignmentData pl (votesWithLead vs cs) = Except.error "KeyError: lead" := by
  rcases hvl : votesWithLead vs cs with _ | ⟨row, rest⟩
  · exact absurd hvl hne
  · have hlead : rowGet row "lead" = Except.error "KeyError: lead" :=
      rowGet_lead_votesWithLead (hvl ▸ List.mem_cons_self row rest)
    rw [alignmentData, List.foldlM_cons]
    have hcls : classifyVote pl row = Except.error "KeyError: lead" := by
      rw [classifyVote, hlead]
      rfl
    rw [hcls]
    rfl

/-- Claim C4 fails on the code: on a vote for a company with a resolvable
lead, the Alignment Analyzer raises `KeyError: 'lead'` instead of producing
classified pairs — `votes_with_lead` only has `lead_x`/`lead_y`. -/
theorem c4_alignment_keyerror :
    alignmentData [personAlice]
      (votesWithLead (mergedVotes [entryAlice] [companyAcme] [personAlice])
        [companyAcme])
      = Except.error "KeyError: lead" :=
  alignmentData_error [personAlice]
    (mergedVotes [entryAlice] [companyAcme] [personAlice]) [companyAcme]
    (by decide)

/-- Claim C9 fails on the code: even in the zero-resolvable-pair scenario
(the only lead name "Bob" matches no Person row), the loop raises
`KeyError: 'lead'` on its first row, before any resolution or the
zero-pair guard, instead of returning a null result. -/
theorem c9_alignment_keyerror :
    alignmentData [personAlice]
      (votesWithLead (mergedVotes [entryAlice] [companyAcmeLedByBob] [personAlice])
        [companyAcmeLedByBob])
      = Except.error "KeyError: lead" :=
  alignmentData_error [personAlice]
    (mergedVotes [entryAlice] [companyAcmeLedByBob] [personAlice]) [companyAcmeLedByBob]
    (by decide)

end BluFunnel
